import Mathlib

/-!
Verification of the synchronous data-parallel training pattern used by the
distributed-training notebooks (custom training with a mirrored strategy).
Tensors of per-example losses are embedded as lists of rationals, gradient
collections as functions from a parameter-index type to rationals, and the
external collaborators (model forward pass, autodiff, optimizer) as explicit
function arguments, following the collaborator contracts the notebooks rely on.
-/

namespace TFDist

/-- Embedding of tf.nn.compute_average_loss applied with an explicit
global_batch_size argument: the sum of the per-example losses divided by the
global batch size. -/
def compute_average_loss (per_example_loss : List ℚ) (global_batch_size : ℕ) : ℚ :=
  per_example_loss.sum / global_batch_size

/-- Embedding of the notebook's compute_loss: loss_object is built with
reduction NONE, so applying it to the label and prediction batches yields the
list of per-example losses (one per zipped pair), which is then reduced by
compute_average_loss with the GLOBAL_BATCH_SIZE. -/
def compute_loss {L P : Type} (loss_object : L → P → ℚ)
    (labels : List L) (predictions : List P) (global_batch_size : ℕ) : ℚ :=
  compute_average_loss (List.zipWith loss_object labels predictions) global_batch_size

/-- Embedding of the loss reduction in the estimator notebook's model_fn:
loss = tf.reduce_sum(per_example_loss) * (1. / BATCH_SIZE), where BATCH_SIZE is
the configured global batch constant, not the size of the incoming tensor. -/
def model_fn_loss (per_example_loss : List ℚ) (BATCH_SIZE : ℕ) : ℚ :=
  per_example_loss.sum * (1 / (BATCH_SIZE : ℚ))

/-- Modelled from the spec: sizes of the contiguous per-replica slices of a
global batch of G examples split across R replicas; the first G % R replicas
receive one extra example, so sizes differ by at most one and total G. The
batch-splitting machinery itself lives in the external distribution strategy
and is not part of this repository. -/
def splitSizes (G R : ℕ) : List ℕ :=
  List.replicate (G % R) (G / R + 1) ++ List.replicate (R - G % R) (G / R)

/-- Cuts a list into consecutive chunks of the requested sizes. -/
def splitChunks {α : Type} : List ℕ → List α → List (List α)
  | [], _ => []
  | n :: ns, b => b.take n :: splitChunks ns (b.drop n)

/-- Modelled from the spec: the replica coordinator's deterministic partition of
a global batch into num_replicas contiguous, roughly equal sub-batches. -/
def partitionBatch {α : Type} (R : ℕ) (b : List α) : List (List α) :=
  splitChunks (splitSizes b.length R) b

theorem splitSizes_length (G R : ℕ) (hR : 0 < R) : (splitSizes G R).length = R := by
  have h : G % R < R := Nat.mod_lt _ hR
  simp [splitSizes]
  omega

theorem splitSizes_sum (G R : ℕ) (hR : 0 < R) : (splitSizes G R).sum = G := by
  have h : G % R < R := Nat.mod_lt _ hR
  have hdm : R * (G / R) + G % R = G := Nat.div_add_mod G R
  simp [splitSizes, List.sum_replicate, smul_eq_mul]
  generalize hq : G / R = q at hdm ⊢
  generalize hm : G % R = m at h hdm ⊢
  have hsub : (R - m) * q = R * q - m * q := Nat.sub_mul R m q
  have hle : m * q ≤ R * q := Nat.mul_le_mul_right q (Nat.le_of_lt h)
  calc m * (q + 1) + (R - m) * q = m * q + m + (R * q - m * q) := by rw [hsub, Nat.mul_add, Nat.mul_one]
    _ = R * q + m := by omega
    _ = G := hdm

theorem splitSizes_mem (G R : ℕ) (n : ℕ) (hn : n ∈ splitSizes G R) :
    n = G / R ∨ n = G / R + 1 := by
  simp [splitSizes] at hn
  rcases hn with ⟨_, h⟩ | ⟨_, h⟩
  · right; omega
  · left; omega

theorem splitChunks_length {α : Type} :
    ∀ (ns : List ℕ) (b : List α), (splitChunks ns b).length = ns.length := by
  intro ns
  induction ns with
  | nil => intro b; simp [splitChunks]
  | cons n ns ih => intro b; simp [splitChunks, ih]

theorem splitChunks_join {α : Type} :
    ∀ (ns : List ℕ) (b : List α), b.length ≤ ns.sum → (splitChunks ns b).flatten = b := by
  intro ns
  induction ns with
  | nil =>
      intro b hb
      simp at hb
      simp [splitChunks, hb]
  | cons n ns ih =>
      intro b hb
      simp [splitChunks]
      rw [ih (b.drop n)]
      · exact List.take_append_drop n b
      · simp [List.length_drop]
        simp [List.sum_cons] at hb
        omega

theorem splitChunks_sizes {α : Type} :
    ∀ (ns : List ℕ) (b : List α), ns.sum ≤ b.length →
      (splitChunks ns b).map List.length = ns := by
  intro ns
  induction ns with
  | nil => intro b _; simp [splitChunks]
  | cons n ns ih =>
      intro b hb
      simp [List.sum_cons] at hb
      simp [splitChunks]
      constructor
      · omega
      · apply ih
        simp [List.length_drop]
        omega

theorem partitionBatch_length {α : Type} (R : ℕ) (b : List α) (hR : 0 < R) :
    (partitionBatch R b).length = R := by
  rw [partitionBatch, splitChunks_length, splitSizes_length _ _ hR]

theorem partitionBatch_join {α : Type} (R : ℕ) (b : List α) (hR : 0 < R) :
    (partitionBatch R b).flatten = b := by
  apply splitChunks_join
  rw [splitSizes_sum _ _ hR]

theorem partitionBatch_sizes {α : Type} (R : ℕ) (b : List α) (hR : 0 < R) :
    ∀ s ∈ partitionBatch R b, s.length = b.length / R ∨ s.length = b.length / R + 1 := by
  intro s hs
  have hmap : (partitionBatch R b).map List.length = splitSizes b.length R := by
    apply splitChunks_sizes
    rw [splitSizes_sum _ _ hR]
  have : s.length ∈ splitSizes b.length R := by
    rw [← hmap]
    exact List.mem_map_of_mem List.length hs
  exact splitSizes_mem _ _ _ this

/-- Pointwise sum of a list of gradient collections (one rational per
parameter index), the elementwise-sum all-reduce of the strategy. -/
def gsum {ι : Type} (gs : List (ι → ℚ)) : ι → ℚ :=
  fun i => (gs.map (fun g => g i)).sum

/-- Pointwise scaling of a gradient collection by a rational constant. -/
def gscale {ι : Type} (c : ℚ) (g : ι → ℚ) : ι → ℚ :=
  fun i => c * g i

/-- Gradients of the scaled per-replica loss, produced by the autodiff
collaborator: by linearity of differentiation, the gradient of
(sum of per-example losses) / G is the sum of the per-example gradients
scaled by 1 / G; grad gives the per-example gradient collection. -/
def replica_gradients {ι Ex : Type} (grad : Ex → ι → ℚ) (G : ℕ)
    (sub_batch : List Ex) : ι → ℚ :=
  gscale (1 / (G : ℚ)) (gsum (sub_batch.map grad))

/-- Embedding of strategy.reduce with ReduceOp.SUM over per-replica values:
elementwise sum across replicas, the sole synchronization point of a step. -/
def all_reduce_sum {ι : Type} (per_replica : List (ι → ℚ)) : ι → ℚ :=
  gsum per_replica

/-- One distributed training step on the gradient path: partition the global
batch over R replicas, let each replica compute the gradients of its loss
scaled by the global batch size G, sum-reduce them, and hand the aggregate to
the optimizer collaborator apply_gradients exactly once. -/
def distributed_train_step {ι Ex P S : Type}
    (apply_gradients : P → S → (ι → ℚ) → P × S)
    (grad : Ex → ι → ℚ) (R G : ℕ) (params : P) (opt_state : S)
    (batch : List Ex) : P × S :=
  apply_gradients params opt_state
    (all_reduce_sum ((partitionBatch R batch).map (replica_gradients grad G)))

/-- One plain, non-distributed training step: the optimizer applied to the
gradients of the average loss over the whole batch. -/
def single_train_step {ι Ex P S : Type}
    (apply_gradients : P → S → (ι → ℚ) → P × S)
    (grad : Ex → ι → ℚ) (G : ℕ) (params : P) (opt_state : S)
    (batch : List Ex) : P × S :=
  apply_gradients params opt_state (replica_gradients grad G batch)

theorem sum_scaled_gsum {ι Ex : Type} (c : ℚ) (grad : Ex → ι → ℚ) (i : ι) :
    ∀ subs : List (List Ex),
      (subs.map (fun sb => c * ((sb.map grad).map (fun g => g i)).sum)).sum
        = c * ((subs.flatten.map grad).map (fun g => g i)).sum := by
  intro subs
  induction subs with
  | nil => simp
  | cons s ss ih =>
      simp only [List.map_cons, List.sum_cons, List.flatten_cons, List.map_append,
        List.sum_append, mul_add, ih]

theorem all_reduce_partition {ι Ex : Type} (grad : Ex → ι → ℚ) (R G : ℕ)
    (batch : List Ex) (hR : 0 < R) :
    all_reduce_sum ((partitionBatch R batch).map (replica_gradients grad G))
      = replica_gradients grad G batch := by
  funext i
  have key := sum_scaled_gsum (1 / (G : ℚ)) grad i (partitionBatch R batch)
  rw [partitionBatch_join R batch hR] at key
  show ((List.map (replica_gradients grad G) (partitionBatch R batch)).map
      (fun g => g i)).sum = replica_gradients grad G batch i
  rw [List.map_map]
  exact key

/-- State of a SparseCategoricalAccuracy metric accumulator: the number of
matching predictions seen so far and the number of examples seen so far. -/
structure AccuracyState where
  correct : ℕ
  total : ℕ
deriving DecidableEq, Repr

/-- Embedding of train_accuracy.update_state(labels, predictions): the running
counts grow by the matches and the size of the presented batch. -/
def update_state {L P : Type} (is_match : L → P → Bool) (acc : AccuracyState)
    (labels : List L) (predictions : List P) : AccuracyState :=
  { correct := acc.correct + (List.zipWith is_match labels predictions).count true,
    total := acc.total + labels.length }

/-- The shared state a replica can reach during a step: the mirrored model
parameters, the optimizer slot state, and the train-accuracy accumulator. -/
structure TrainState (P S : Type) where
  params : P
  opt_state : S
  train_accuracy : AccuracyState

/-- Embedding of the notebook's train_step, line by line: unpack the inputs
into images and labels, run the model forward on the current parameters,
compute the loss scaled by the global batch size G, obtain the gradients from
the autodiff collaborator (tape.gradient), call
optimizer.apply_gradients - which under the mirrored strategy updates the
shared parameters and the optimizer slot state - then call
train_accuracy.update_state, and return the loss. The state mutations the
Python code performs in place are made explicit by returning the new
TrainState alongside the returned loss. -/
def train_step {Img Lbl Pr P S ι : Type}
    (model : P → Img → Pr)
    (loss_object : Lbl → Pr → ℚ)
    (tape_gradient : P → List (Img × Lbl) → ι → ℚ)
    (apply_gradients : P → S → (ι → ℚ) → P × S)
    (is_match : Lbl → Pr → Bool)
    (G : ℕ)
    (st : TrainState P S) (inputs : List (Img × Lbl)) : ℚ × TrainState P S :=
  let images := inputs.map Prod.fst
  let labels := inputs.map Prod.snd
  let predictions := images.map (model st.params)
  let loss := compute_loss loss_object labels predictions G
  let gradients := tape_gradient st.params inputs
  let applied := apply_gradients st.params st.opt_state gradients
  let acc := update_state is_match st.train_accuracy labels predictions
  (loss, { params := applied.1, opt_state := applied.2, train_accuracy := acc })

/-- Addition on IEEE-like scalars where none stands for NaN: NaN absorbs. -/
def qadd : Option ℚ → Option ℚ → Option ℚ
  | some a, some b => some (a + b)
  | _, _ => none

/-- Multiplication on IEEE-like scalars where none stands for NaN. -/
def qmul : Option ℚ → Option ℚ → Option ℚ
  | some a, some b => some (a * b)
  | _, _ => none

/-- Subtraction on IEEE-like scalars where none stands for NaN. -/
def qsub : Option ℚ → Option ℚ → Option ℚ
  | some a, some b => some (a - b)
  | _, _ => none

/-- Division on IEEE-like scalars where none stands for NaN. -/
def qdiv : Option ℚ → Option ℚ → Option ℚ
  | some a, some b => some (a / b)
  | _, _ => none

/-- Embedding of one replica's step over NaN-capable scalars, following the
code path of train_step: the per-example losses are summed and divided by the
global batch size G, tape.gradient of a NaN loss yields NaN for every
trainable variable (autodiff propagates NaN through the backward pass; when
the loss is finite the collaborator returns the finite gradients base_grad),
and apply_gradients performs the update params[i] - lr * grad[i]
unconditionally - the code contains no NaN or Inf check anywhere on this
path. Returns the loss, exactly as train_step does, never an error. -/
def train_step_nan (per_example_loss : List (Option ℚ)) (base_grad : List ℚ)
    (lr : ℚ) (G : ℕ) (params : List (Option ℚ)) :
    Option ℚ × List (Option ℚ) :=
  let loss := qdiv (per_example_loss.foldr qadd (some 0)) (some (G : ℚ))
  let gradients := match loss with
    | none => params.map (fun _ => (none : Option ℚ))
    | some _ => base_grad.map some
  let new_params := List.zipWith (fun p g => qsub p (qmul (some lr) g)) params gradients
  (loss, new_params)

/-- Modelled from the spec: a checkpoint is an immutable snapshot of the
parameter values and the optimizer state, tagged with a step counter; the
checkpoint binary format and its writer live in the external framework. -/
structure Checkpoint (P S : Type) where
  step_id : ℕ
  params : P
  opt_state : S

/-- Modelled from the spec: checkpoint.save captures the current parameters
and optimizer state into a snapshot. -/
def checkpoint_save {P S : Type} (step_id : ℕ) (params : P) (opt_state : S) :
    Checkpoint P S :=
  { step_id := step_id, params := params, opt_state := opt_state }

/-- Modelled from the spec: checkpoint.restore returns the saved parameter
values and optimizer state exactly as they were captured. -/
def checkpoint_restore {P S : Type} (c : Checkpoint P S) : P × S :=
  (c.params, c.opt_state)

/-- Modelled from the spec: the training iterator obtained from
iter(train_dist_dataset) - an underlying repeating dataset stream of global
batches plus the current position in it. -/
structure DatasetIterator (α : Type) where
  dataset : ℕ → α
  pos : ℕ

/-- Modelled from the spec: next(train_iter) yields the batch at the current
position and advances the position by one, leaving the underlying dataset
untouched. -/
def iterator_next {α : Type} (it : DatasetIterator α) : α × DatasetIterator α :=
  (it.dataset it.pos, { dataset := it.dataset, pos := it.pos + 1 })

/-- Requesting n steps from the iterator: n successive next calls, collecting
the batches consumed in order. -/
def iterator_take {α : Type} : ℕ → DatasetIterator α → List α × DatasetIterator α
  | 0, it => ([], it)
  | n + 1, it =>
      let r := iterator_next it
      let rest := iterator_take n r.2
      (r.1 :: rest.1, rest.2)

theorem iterator_take_eq {α : Type} :
    ∀ (n : ℕ) (it : DatasetIterator α),
      iterator_take n it
        = ((List.range n).map (fun i => it.dataset (it.pos + i)),
           { dataset := it.dataset, pos := it.pos + n }) := by
  intro n
  induction n with
  | zero => intro it; simp [iterator_take]
  | succ n ih =>
      intro it
      rw [iterator_take, ih]
      simp [iterator_next, List.range_succ_eq_map, List.map_map]
      constructor
      · intro a ha
        congr 1
        omega
      · omega

/-- Configured per-replica batch size, common to the distributed notebooks. -/
def BATCH_SIZE_PER_REPLICA : ℕ := 64

/-- Embedding of GLOBAL_BATCH_SIZE = BATCH_SIZE_PER_REPLICA *
strategy.num_replicas_in_sync, the only way the notebooks ever build a global
batch size. -/
def GLOBAL_BATCH_SIZE (num_replicas_in_sync : ℕ) : ℕ :=
  BATCH_SIZE_PER_REPLICA * num_replicas_in_sync

/-- Modelled from the spec: after the all-reduce every replica holds the same
aggregated gradient, and each applies the same deterministic optimizer update
to its own mirrored copy of the parameters and optimizer state; the variable
update machinery of the mirrored strategy lives in the external framework. -/
def mirrored_apply {ι P S : Type} (apply_gradients : P → S → (ι → ℚ) → P × S)
    (agg : ι → ℚ) (replica_states : List (P × S)) : List (P × S) :=
  replica_states.map (fun ps => apply_gradients ps.1 ps.2 agg)

theorem sum_mul_chunks (c : ℚ) :
    ∀ subs : List (List ℚ),
      (subs.map (fun sb => sb.sum * c)).sum = subs.flatten.sum * c := by
  intro subs
  induction subs with
  | nil => simp
  | cons s ss ih => simp [ih, add_mul]

/-- C1: the per-replica step obtains per-example losses from the no-reduction
loss function, sums them and divides by the global batch size G; the result
differs from a local mean whenever the sub-batch is smaller than G and the
losses do not sum to zero, so the denominator really is the global count; and
the estimator notebook's model_fn reduction is the same sum divided by the
configured global BATCH_SIZE constant. -/
theorem c1_scaled_loss_uses_global_batch_size {L P : Type}
    (loss_object : L → P → ℚ) (labels : List L) (predictions : List P) (G : ℕ)
    (hG : 0 < G)
    (hlocal : 0 < (List.zipWith loss_object labels predictions).length)
    (hne : (List.zipWith loss_object labels predictions).length ≠ G)
    (hsum : (List.zipWith loss_object labels predictions).sum ≠ 0) :
    compute_loss loss_object labels predictions G
        = (List.zipWith loss_object labels predictions).sum / (G : ℚ)
      ∧ compute_loss loss_object labels predictions G
          ≠ (List.zipWith loss_object labels predictions).sum
              / ((List.zipWith loss_object labels predictions).length : ℚ)
      ∧ ∀ (ls : List ℚ) (B : ℕ), model_fn_loss ls B = ls.sum / (B : ℚ) := by
  refine ⟨rfl, ?_, ?_⟩
  · intro h
    have hGQ : (G : ℚ) ≠ 0 := Nat.cast_ne_zero.mpr (Nat.pos_iff_ne_zero.mp hG)
    have hLQ : ((List.zipWith loss_object labels predictions).length : ℚ) ≠ 0 :=
      Nat.cast_ne_zero.mpr (Nat.pos_iff_ne_zero.mp hlocal)
    have hcross := (div_eq_div_iff hGQ hLQ).mp h
    have hcast : ((List.zipWith loss_object labels predictions).length : ℚ) = (G : ℚ) :=
      mul_left_cancel₀ hsum hcross
    exact hne (Nat.cast_injective hcast)
  · intro ls B
    rw [model_fn_loss, mul_one_div]

/-- Witness for C1 at per-example losses [2, 3] (labels [3, 4] against
predictions [1, 1] under the absolute-difference loss) with global batch size
4: the scaled loss is 5/4, not the local mean 5/2. -/
theorem c1_scaled_loss_uses_global_batch_size_witness :
    ((0 : ℕ) < 4
      ∧ 0 < (List.zipWith (fun (l p : ℚ) => l - p) [3, 4] [1, 1]).length
      ∧ (List.zipWith (fun (l p : ℚ) => l - p) [3, 4] [1, 1]).length ≠ 4
      ∧ (List.zipWith (fun (l p : ℚ) => l - p) [3, 4] [1, 1]).sum ≠ 0)
    ∧ (compute_loss (fun (l p : ℚ) => l - p) [3, 4] [1, 1] 4
          = (List.zipWith (fun (l p : ℚ) => l - p) [3, 4] [1, 1]).sum / ((4 : ℕ) : ℚ)
        ∧ compute_loss (fun (l p : ℚ) => l - p) [3, 4] [1, 1] 4
            ≠ (List.zipWith (fun (l p : ℚ) => l - p) [3, 4] [1, 1]).sum
                / (((List.zipWith (fun (l p : ℚ) => l - p) [3, 4] [1, 1]).length : ℕ) : ℚ)
        ∧ ∀ (ls : List ℚ) (B : ℕ), model_fn_loss ls B = ls.sum / (B : ℚ)) :=
  ⟨⟨by decide, by decide, by decide, by norm_num [List.zipWith]⟩,
    c1_scaled_loss_uses_global_batch_size (fun (l p : ℚ) => l - p) [3, 4] [1, 1] 4
      (by decide) (by decide) (by decide) (by norm_num [List.zipWith])⟩

/-- C2: with R replicas and a batch of size G divisible by R, the optimizer
receives exactly the gradient it receives in the single-replica run on the
same batch, so the parameter and optimizer-state updates coincide exactly
(the embedding is over rationals, so within tolerance holds as equality); in
particular the R = 1 distributed step is the plain non-distributed step. -/
theorem c2_distributed_step_equals_single_step {ι Ex P S : Type}
    (apply_gradients : P → S → (ι → ℚ) → P × S) (grad : Ex → ι → ℚ)
    (R G : ℕ) (params : P) (opt_state : S) (batch : List Ex)
    (hR : 0 < R) (_hdvd : R ∣ G) (_hlen : batch.length = G) :
    distributed_train_step apply_gradients grad R G params opt_state batch
        = single_train_step apply_gradients grad G params opt_state batch
      ∧ distributed_train_step apply_gradients grad 1 G params opt_state batch
          = single_train_step apply_gradients grad G params opt_state batch := by
  constructor
  · rw [distributed_train_step, single_train_step, all_reduce_partition grad R G batch hR]
  · rw [distributed_train_step, single_train_step,
      all_reduce_partition grad 1 G batch Nat.one_pos]

/-- Witness for C2 with a gradient-descent-with-step-counter optimizer, the
identity per-example gradient, R = 2 replicas and the batch [1, 2, 3, 4] of
global size 4. -/
theorem c2_distributed_step_equals_single_step_witness :
    ((0 : ℕ) < 2 ∧ 2 ∣ 4 ∧ [(1 : ℚ), 2, 3, 4].length = 4)
    ∧ (distributed_train_step
          (fun (p s : ℚ) (g : Fin 1 → ℚ) => (p - g 0, s + 1))
          (fun e _ => e) 2 4 0 0 [(1 : ℚ), 2, 3, 4]
        = single_train_step
          (fun (p s : ℚ) (g : Fin 1 → ℚ) => (p - g 0, s + 1))
          (fun e _ => e) 4 0 0 [(1 : ℚ), 2, 3, 4]
      ∧ distributed_train_step
          (fun (p s : ℚ) (g : Fin 1 → ℚ) => (p - g 0, s + 1))
          (fun e _ => e) 1 4 0 0 [(1 : ℚ), 2, 3, 4]
        = single_train_step
          (fun (p s : ℚ) (g : Fin 1 → ℚ) => (p - g 0, s + 1))
          (fun e _ => e) 4 0 0 [(1 : ℚ), 2, 3, 4]) :=
  ⟨⟨by decide, by decide, by decide⟩,
    c2_distributed_step_equals_single_step
      (fun (p s : ℚ) (g : Fin 1 → ℚ) => (p - g 0, s + 1))
      (fun e _ => e) 2 4 0 0 [(1 : ℚ), 2, 3, 4]
      (by decide) (by decide) (by decide)⟩

/-- C3: for any partition of the global batch into per-replica sub-batches,
even or uneven, the per-replica scaled losses sum to the single-replica
average loss of the whole batch; on the spec's example the sub-batches [2, 3]
and [4, 5] contribute 5/4 and 9/4, summing to 7/2, which is the plain average
of [2, 3, 4, 5]. -/
theorem c3_scaled_losses_sum_to_global_average (subs : List (List ℚ))
    (batch : List ℚ) (hpart : subs.flatten = batch) :
    (subs.map (fun sb => compute_average_loss sb batch.length)).sum
        = compute_average_loss batch batch.length
      ∧ compute_average_loss [2, 3] 4 = 5 / 4
      ∧ compute_average_loss [4, 5] 4 = 9 / 4
      ∧ compute_average_loss [2, 3] 4 + compute_average_loss [4, 5] 4
          = compute_average_loss [2, 3, 4, 5] 4 := by
  refine ⟨?_, by norm_num [compute_average_loss], by norm_num [compute_average_loss],
    by norm_num [compute_average_loss]⟩
  have h := sum_mul_chunks ((batch.length : ℚ))⁻¹ subs
  rw [hpart] at h
  simpa [compute_average_loss, div_eq_mul_inv] using h

/-- Witness for C3 at the spec's partition of [2, 3, 4, 5] into [2, 3] and
[4, 5]. -/
theorem c3_scaled_losses_sum_to_global_average_witness :
    ([[ (2 : ℚ), 3], [4, 5]].flatten = [(2 : ℚ), 3, 4, 5])
    ∧ (([[(2 : ℚ), 3], [4, 5]].map
          (fun sb => compute_average_loss sb [(2 : ℚ), 3, 4, 5].length)).sum
          = compute_average_loss [(2 : ℚ), 3, 4, 5] [(2 : ℚ), 3, 4, 5].length
        ∧ compute_average_loss [2, 3] 4 = 5 / 4
        ∧ compute_average_loss [4, 5] 4 = 9 / 4
        ∧ compute_average_loss [2, 3] 4 + compute_average_loss [4, 5] 4
            = compute_average_loss [2, 3, 4, 5] 4) :=
  ⟨by decide,
    c3_scaled_losses_sum_to_global_average [[(2 : ℚ), 3], [4, 5]]
      [(2 : ℚ), 3, 4, 5] (by decide)⟩

/-- C4 counterexample: at the concrete input of one (image, label) pair with a
linear model, squared-error loss, constant-one gradients and a
gradient-descent-with-step-counter optimizer, the step as the code writes it
changes the parameters, the optimizer state and the accuracy accumulator, and
returns only the loss scalar - refuting the claim that the per-replica step is
free of side effects on shared state. -/
theorem c4_counterexample :
    ¬ ((train_step (fun (p x : ℚ) => p * x) (fun (l pr : ℚ) => (l - pr) ^ 2)
          (fun _ _ => fun _ : Fin 1 => 1)
          (fun (p s : ℚ) (g : Fin 1 → ℚ) => (p - g 0, s + 1))
          (fun (l pr : ℚ) => decide (l = pr)) 4
          { params := 0, opt_state := 0, train_accuracy := { correct := 0, total := 0 } }
          [((1 : ℚ), (2 : ℚ))]).2.params = (0 : ℚ)
      ∧ (train_step (fun (p x : ℚ) => p * x) (fun (l pr : ℚ) => (l - pr) ^ 2)
          (fun _ _ => fun _ : Fin 1 => 1)
          (fun (p s : ℚ) (g : Fin 1 → ℚ) => (p - g 0, s + 1))
          (fun (l pr : ℚ) => decide (l = pr)) 4
          { params := 0, opt_state := 0, train_accuracy := { correct := 0, total := 0 } }
          [((1 : ℚ), (2 : ℚ))]).2.opt_state = (0 : ℚ)
      ∧ (train_step (fun (p x : ℚ) => p * x) (fun (l pr : ℚ) => (l - pr) ^ 2)
          (fun _ _ => fun _ : Fin 1 => 1)
          (fun (p s : ℚ) (g : Fin 1 → ℚ) => (p - g 0, s + 1))
          (fun (l pr : ℚ) => decide (l = pr)) 4
          { params := 0, opt_state := 0, train_accuracy := { correct := 0, total := 0 } }
          [((1 : ℚ), (2 : ℚ))]).2.train_accuracy
          = { correct := 0, total := 0 }) := by
  intro h
  have h1 := h.1
  simp [train_step, update_state, compute_loss, compute_average_loss] at h1

/-- C4 amended: the per-replica step returns only the scaled partial loss
scalar (the gradient collection is consumed inside the step, not returned),
and it does act on shared state: the parameters and the optimizer state become
whatever optimizer.apply_gradients makes of the gradients, and the
train-accuracy accumulator advances by the sub-batch it saw. -/
theorem c4_amended_step_returns_loss_and_mutates {Img Lbl Pr P S ι : Type}
    (model : P → Img → Pr) (loss_object : Lbl → Pr → ℚ)
    (tape_gradient : P → List (Img × Lbl) → ι → ℚ)
    (apply_gradients : P → S → (ι → ℚ) → P × S)
    (is_match : Lbl → Pr → Bool) (G : ℕ)
    (st : TrainState P S) (inputs : List (Img × Lbl)) :
    (train_step model loss_object tape_gradient apply_gradients is_match G st inputs).1
        = compute_loss loss_object (inputs.map Prod.snd)
            ((inputs.map Prod.fst).map (model st.params)) G
      ∧ (train_step model loss_object tape_gradient apply_gradients is_match G st inputs).2.params
          = (apply_gradients st.params st.opt_state (tape_gradient st.params inputs)).1
      ∧ (train_step model loss_object tape_gradient apply_gradients is_match G st inputs).2.opt_state
          = (apply_gradients st.params st.opt_state (tape_gradient st.params inputs)).2
      ∧ (train_step model loss_object tape_gradient apply_gradients is_match G st
            inputs).2.train_accuracy.total
          = st.train_accuracy.total + inputs.length := by
  refine ⟨rfl, rfl, rfl, ?_⟩
  simp [train_step, update_state]

theorem qadd_foldr_none :
    ∀ l : List (Option ℚ), none ∈ l → l.foldr qadd (some 0) = none := by
  intro l h
  induction l with
  | nil => simp at h
  | cons a l ih =>
      rcases List.mem_cons.mp h with ha | hl
      · rw [List.foldr_cons, ← ha]
        cases l.foldr qadd (some 0) <;> rfl
      · rw [List.foldr_cons, ih hl]
        cases a <;> rfl

theorem zipWith_nan_update (lr : ℚ) :
    ∀ ps : List (Option ℚ),
      List.zipWith (fun p g => qsub p (qmul (some lr) g)) ps (ps.map (fun _ => none))
        = ps.map (fun _ => none) := by
  intro ps
  induction ps with
  | nil => rfl
  | cons p ps ih =>
      simp only [List.map_cons, List.zipWith_cons_cons, ih]
      cases p <;> rfl

/-- C5 counterexample: injecting a NaN into one of the per-example losses of a
replica's sub-batch does not leave the parameters untouched - the step as
coded applies the corrupted gradients and the parameter [some 1] is
overwritten - refuting the claim that no parameter is updated in a step whose
loss is NaN. -/
theorem c5_counterexample :
    (train_step_nan [some 2, none, some 4, some 5] [1] (1 / 2) 4 [some 1]).2
      ≠ [some 1] := by
  decide

/-- C5 amended: the code contains no NaN detection, so a NaN appearing among
the per-example losses makes the returned loss NaN, the gradients NaN, and -
because apply_gradients runs unconditionally - every parameter is overwritten
with NaN; the step completes normally and the only trace the caller sees is
the NaN loss value, not a surfaced failure. -/
theorem c5_amended_nan_is_applied_silently (per_example_loss : List (Option ℚ))
    (base_grad : List ℚ) (lr : ℚ) (G : ℕ) (params : List (Option ℚ))
    (h : none ∈ per_example_loss) :
    (train_step_nan per_example_loss base_grad lr G params).1 = none
      ∧ (train_step_nan per_example_loss base_grad lr G params).2
          = params.map (fun _ => none) := by
  have hl : per_example_loss.foldr qadd (some 0) = none := qadd_foldr_none _ h
  constructor
  · simp [train_step_nan, hl, qdiv]
  · simp only [train_step_nan, hl, qdiv]
    exact zipWith_nan_update lr params

/-- Witness for C5 amended at the injected batch [some 2, none] with one
parameter and learning rate 1/2. -/
theorem c5_amended_nan_is_applied_silently_witness :
    ((none : Option ℚ) ∈ [some 2, none])
    ∧ ((train_step_nan [some 2, none] [1] (1 / 2) 4 [some 1, some 3]).1 = none
        ∧ (train_step_nan [some 2, none] [1] (1 / 2) 4 [some 1, some 3]).2
            = [some (1 : ℚ), some 3].map (fun _ => none)) :=
  ⟨by decide,
    c5_amended_nan_is_applied_silently [some 2, none] [1] (1 / 2) 4
      [some 1, some 3] (by decide)⟩

/-- C6: the coordinator yields exactly num_replicas sub-batches; being a pure
function of the global batch it is deterministic; flattening the sub-batches
in order gives back exactly the global batch, so every example is covered and
none is assigned to two replicas; and every sub-batch holds either G / R or
G / R + 1 examples, so sizes differ by at most one when R does not divide G. -/
theorem c6_coordinator_partition_properties {α : Type} (R : ℕ) (b : List α)
    (hR : 0 < R) :
    (partitionBatch R b).length = R
      ∧ (partitionBatch R b).flatten = b
      ∧ (∀ s ∈ partitionBatch R b,
            s.length = b.length / R ∨ s.length = b.length / R + 1)
      ∧ (∀ s₁ ∈ partitionBatch R b, ∀ s₂ ∈ partitionBatch R b,
            s₁.length ≤ s₂.length + 1) := by
  refine ⟨partitionBatch_length R b hR, partitionBatch_join R b hR,
    partitionBatch_sizes R b hR, ?_⟩
  intro s₁ h₁ s₂ h₂
  rcases partitionBatch_sizes R b hR s₁ h₁ with h | h <;>
    rcases partitionBatch_sizes R b hR s₂ h₂ with h2 | h2 <;> omega

/-- Witness for C6: splitting a global batch of 7 examples over 3 replicas. -/
theorem c6_coordinator_partition_properties_witness :
    (0 < 3)
    ∧ ((partitionBatch 3 (List.range 7)).length = 3
        ∧ (partitionBatch 3 (List.range 7)).flatten = List.range 7
        ∧ (∀ s ∈ partitionBatch 3 (List.range 7),
              s.length = (List.range 7).length / 3
                ∨ s.length = (List.range 7).length / 3 + 1)
        ∧ (∀ s₁ ∈ partitionBatch 3 (List.range 7),
             ∀ s₂ ∈ partitionBatch 3 (List.range 7),
              s₁.length ≤ s₂.length + 1)) :=
  ⟨by decide, c6_coordinator_partition_properties 3 (List.range 7) (by decide)⟩

/-- C7: when all replicas enter the step with the same parameter values and
optimizer state, and each independently applies the same deterministic
optimizer update to the same aggregated gradient, every replica leaves the
step with the identical new value - the mirroring invariant is preserved with
no broadcast of parameter values. -/
theorem c7_mirroring_invariant_preserved {ι P S : Type}
    (apply_gradients : P → S → (ι → ℚ) → P × S) (agg : ι → ℚ)
    (replica_states : List (P × S)) (w : P) (s : S)
    (h : ∀ ps ∈ replica_states, ps = (w, s)) :
    ∀ q ∈ mirrored_apply apply_gradients agg replica_states,
      q = apply_gradients w s agg := by
  intro q hq
  rcases List.mem_map.mp hq with ⟨ps, hps, rfl⟩
  rw [h ps hps]

/-- Witness for C7 with two mirrored replicas at parameters 2 and optimizer
state 5 applying a gradient-descent update to the aggregated gradient 1. -/
theorem c7_mirroring_invariant_preserved_witness :
    (∀ ps ∈ [((2 : ℚ), (5 : ℚ)), (2, 5)], ps = ((2 : ℚ), (5 : ℚ)))
    ∧ ∀ q ∈ mirrored_apply (fun (p s : ℚ) (g : Fin 1 → ℚ) => (p - g 0, s + 1))
          (fun _ => 1) [((2 : ℚ), (5 : ℚ)), (2, 5)],
        q = (fun (p s : ℚ) (g : Fin 1 → ℚ) => (p - g 0, s + 1)) 2 5 (fun _ => 1) :=
  ⟨by decide,
    c7_mirroring_invariant_preserved (fun (p s : ℚ) (g : Fin 1 → ℚ) => (p - g 0, s + 1))
      (fun _ => 1) [((2 : ℚ), (5 : ℚ)), (2, 5)] 2 5 (by decide)⟩

/-- C8: restoring a checkpoint immediately after saving it hands back exactly
the parameters and optimizer state that were captured, so running one training
step from the restored state produces the very same loss and the very same new
state as continuing for one step without the save/load round trip. -/
theorem c8_checkpoint_roundtrip_preserves_step {Img Lbl Pr P S ι : Type}
    (model : P → Img → Pr) (loss_object : Lbl → Pr → ℚ)
    (tape_gradient : P → List (Img × Lbl) → ι → ℚ)
    (apply_gradients : P → S → (ι → ℚ) → P × S)
    (is_match : Lbl → Pr → Bool) (G step_id : ℕ)
    (st : TrainState P S) (inputs : List (Img × Lbl)) :
    checkpoint_restore (checkpoint_save step_id st.params st.opt_state)
        = (st.params, st.opt_state)
      ∧ train_step model loss_object tape_gradient apply_gradients is_match G
          { params := (checkpoint_restore (checkpoint_save step_id st.params st.opt_state)).1,
            opt_state := (checkpoint_restore (checkpoint_save step_id st.params st.opt_state)).2,
            train_accuracy := st.train_accuracy } inputs
        = train_step model loss_object tape_gradient apply_gradients is_match G st inputs :=
  ⟨rfl, rfl⟩

/-- C9: ten next calls on the training iterator yield the batches at positions
pos .. pos + 9 and leave the iterator at pos + 10 over the untouched
underlying dataset; ten further calls continue with positions
pos + 10 .. pos + 19, and the two runs together are exactly the first twenty
batches - nothing skipped, nothing repeated, no reset. -/
theorem c9_iterator_stops_and_resumes {α : Type} (it : DatasetIterator α) :
    (iterator_take 10 it).2.dataset = it.dataset
      ∧ (iterator_take 10 it).2.pos = it.pos + 10
      ∧ (iterator_take 10 it).1
          = (List.range 10).map (fun i => it.dataset (it.pos + i))
      ∧ (iterator_take 10 (iterator_take 10 it).2).1
          = (List.range 10).map (fun i => it.dataset (it.pos + 10 + i))
      ∧ (iterator_take 10 it).1 ++ (iterator_take 10 (iterator_take 10 it).2).1
          = (iterator_take 20 it).1 := by
  simp only [iterator_take_eq]
  refine ⟨trivial, trivial, trivial, trivial, ?_⟩
  rw [show (20 : ℕ) = 10 + 10 from rfl, List.range_add, List.map_append, List.map_map]
  congr 1

/-- C10: every configuration the notebooks build sets the global batch size to
BATCH_SIZE_PER_REPLICA times the number of replicas in sync, so the replica
count always divides the global batch size, and partitioning a full global
batch across the replicas yields equal sub-batches of exactly
BATCH_SIZE_PER_REPLICA examples - the uneven-split edge case never arises from
the code's own configuration. -/
theorem c10_global_batch_always_divisible {α : Type} (R : ℕ) (b : List α)
    (hR : 0 < R) (hb : b.length = GLOBAL_BATCH_SIZE R) :
    R ∣ GLOBAL_BATCH_SIZE R
      ∧ ∀ s ∈ partitionBatch R b, s.length = BATCH_SIZE_PER_REPLICA := by
  constructor
  · exact ⟨BATCH_SIZE_PER_REPLICA, Nat.mul_comm BATCH_SIZE_PER_REPLICA R⟩
  · intro s hs
    have hq : b.length / R = BATCH_SIZE_PER_REPLICA := by
      rw [hb, GLOBAL_BATCH_SIZE, Nat.mul_div_cancel _ hR]
    have hm : b.length % R = 0 := by
      rw [hb, GLOBAL_BATCH_SIZE]
      exact Nat.mul_mod_left BATCH_SIZE_PER_REPLICA R
    have hmap : (partitionBatch R b).map List.length = splitSizes b.length R := by
      apply splitChunks_sizes
      rw [splitSizes_sum _ _ hR]
    have hmem : s.length ∈ splitSizes b.length R := by
      rw [← hmap]
      exact List.mem_map_of_mem List.length hs
    rw [splitSizes, hm, hq] at hmem
    simp [List.mem_replicate] at hmem
    exact hmem.2

/-- Witness for C10 with two replicas and a full global batch of
GLOBAL_BATCH_SIZE 2 = 128 examples. -/
theorem c10_global_batch_always_divisible_witness :
    ((0 < 2) ∧ (List.range 128).length = GLOBAL_BATCH_SIZE 2)
    ∧ (2 ∣ GLOBAL_BATCH_SIZE 2
        ∧ ∀ s ∈ partitionBatch 2 (List.range 128),
            s.length = BATCH_SIZE_PER_REPLICA) :=
  ⟨⟨by decide, by rw [List.length_range]; rfl⟩,
    c10_global_batch_always_divisible 2 (List.range 128) (by decide)
      (by rw [List.length_range]; rfl)⟩

end TFDist
